import Mathlib

/-!
# Verification of django-fernet-fields (`fernet_fields/fields.py`)

A shallow embedding of the field classes in `fernet_fields/fields.py`:
`EncryptedField` (Fernet-encrypted storage column) and `DualField`
(a SHA-256 hash column paired with a hidden encrypted column).

Byte strings are modelled as `List Nat` (each element a byte value).
SHA-256 is implemented concretely (FIPS 180-4) so that digests are
executable.  The Fernet primitive from the `cryptography` library is
modelled as an ideal authenticated-encryption scheme: a token remembers
the key it was encrypted under together with its nonce and plaintext,
and decryption under a key succeeds exactly when that key matches.
Django collaborators (serialization via `force_bytes` /
`force_text` / `to_python`) are parameters of the embedded operations.
-/

/-- A byte string: a list of byte values. -/
abbrev Bytes : Type := List Nat

namespace Sha256

/-- Truncate to a 32-bit word. -/
def w32 (n : Nat) : Nat := n % 4294967296

/-- Right rotation of a 32-bit word by `n` places. -/
def rotr (x n : Nat) : Nat := w32 ((x >>> n) ||| (x <<< (32 - n)))

/-- Big-endian encoding of `n` into exactly `k` bytes. -/
def toBytesBE : Nat → Nat → Bytes
  | 0, _ => []
  | k + 1, n => toBytesBE k (n / 256) ++ [n % 256]

/-- SHA-256 padding: append `128`, zero bytes, and the 64-bit
big-endian bit length, reaching a multiple of 64 bytes. -/
def padMessage (msg : Bytes) : Bytes :=
  let len := msg.length
  let zeros := (64 + 56 - ((len + 1) % 64)) % 64
  msg ++ [128] ++ List.replicate zeros 0 ++ toBytesBE 8 (len * 8)

/-- Split a byte string into 64-byte blocks (fuel-driven recursion so
that the definition reduces definitionally). -/
def chunksGo : Nat → Bytes → List Bytes
  | 0, _ => []
  | _ + 1, [] => []
  | fuel + 1, a :: rest =>
      (a :: rest).take 64 :: chunksGo fuel ((a :: rest).drop 64)

/-- Split a byte string into 64-byte blocks. -/
def chunks64 (l : Bytes) : List Bytes := chunksGo l.length l

/-- Big-endian 32-bit words from a byte string. -/
def bytesToWords : Bytes → List Nat
  | a :: b :: c :: d :: rest =>
      (a * 16777216 + b * 65536 + c * 256 + d) :: bytesToWords rest
  | _ => []

/-- One step of the message-schedule extension: append word `w[i]`
computed from `w[i-2]`, `w[i-7]`, `w[i-15]`, `w[i-16]`. -/
def scheduleStep (w : List Nat) : List Nat :=
  let i := w.length
  let w15 := w.getD (i - 15) 0
  let w2 := w.getD (i - 2) 0
  let w16 := w.getD (i - 16) 0
  let w7 := w.getD (i - 7) 0
  let s0 := (rotr w15 7) ^^^ (rotr w15 18) ^^^ (w15 >>> 3)
  let s1 := (rotr w2 17) ^^^ (rotr w2 19) ^^^ (w2 >>> 10)
  w ++ [w32 (w16 + s0 + w7 + s1)]

/-- Extend the 16 block words to the 64-word message schedule. -/
def fullSchedule (w : List Nat) : List Nat := scheduleStep^[48] w

/-- The eight working registers of the compression function. -/
structure Hash8 where
  a : Nat
  b : Nat
  c : Nat
  d : Nat
  e : Nat
  f : Nat
  g : Nat
  h : Nat
  deriving Repr, DecidableEq

/-- The SHA-256 round constants. -/
def roundConstants : List Nat :=
  [1116352408, 1899447441, 3049323471, 3921009573,
   961987163, 1508970993, 2453635748, 2870763221,
   3624381080, 310598401, 607225278, 1426881987,
   1925078388, 2162078206, 2614888103, 3248222580,
   3835390401, 4022224774, 264347078, 604807628,
   770255983, 1249150122, 1555081692, 1996064986,
   2554220882, 2821834349, 2952996808, 3210313671,
   3336571891, 3584528711, 113926993, 338241895,
   666307205, 773529912, 1294757372, 1396182291,
   1695183700, 1986661051, 2177026350, 2456956037,
   2730485921, 2820302411, 3259730800, 3345764771,
   3516065817, 3600352804, 4094571909, 275423344,
   430227734, 506948616, 659060556, 883997877,
   958139571, 1322822218, 1537002063, 1747873779,
   1955562222, 2024104815, 2227730452, 2361852424,
   2428436474, 2756734187, 3204031479, 3329325298]

/-- The SHA-256 initial hash value. -/
def initH : Hash8 :=
  ⟨1779033703, 3144134277, 1013904242, 2773480762,
   1359893119, 2600822924, 528734635, 1541459225⟩

/-- One round of the SHA-256 compression function. -/
def compressRound (s : Hash8) (wk : Nat × Nat) : Hash8 :=
  let bigS1 := (rotr s.e 6) ^^^ (rotr s.e 11) ^^^ (rotr s.e 25)
  let ch := (s.e &&& s.f) ^^^ ((4294967295 ^^^ s.e) &&& s.g)
  let temp1 := w32 (s.h + bigS1 + ch + wk.2 + wk.1)
  let bigS0 := (rotr s.a 2) ^^^ (rotr s.a 13) ^^^ (rotr s.a 22)
  let maj := (s.a &&& s.b) ^^^ (s.a &&& s.c) ^^^ (s.b &&& s.c)
  let temp2 := w32 (bigS0 + maj)
  ⟨w32 (temp1 + temp2), s.a, s.b, s.c, w32 (s.d + temp1), s.e, s.f, s.g⟩

/-- Process one 64-byte block. -/
def compressBlock (h : Hash8) (block : Bytes) : Hash8 :=
  let ws := fullSchedule (bytesToWords block)
  let s := (ws.zip roundConstants).foldl compressRound h
  ⟨w32 (h.a + s.a), w32 (h.b + s.b), w32 (h.c + s.c), w32 (h.d + s.d),
   w32 (h.e + s.e), w32 (h.f + s.f), w32 (h.g + s.g), w32 (h.h + s.h)⟩

/-- Serialize the final registers as the 32-byte digest. -/
def Hash8.toDigest (h : Hash8) : Bytes :=
  toBytesBE 4 h.a ++ toBytesBE 4 h.b ++ toBytesBE 4 h.c ++ toBytesBE 4 h.d ++
  toBytesBE 4 h.e ++ toBytesBE 4 h.f ++ toBytesBE 4 h.g ++ toBytesBE 4 h.h

end Sha256

/-- SHA-256 of a byte string (`hashlib.sha256(...).digest()`). -/
def sha256 (msg : Bytes) : Bytes :=
  ((Sha256.chunks64 (Sha256.padMessage msg)).foldl
    Sha256.compressBlock Sha256.initH).toDigest

namespace Sha256

theorem toBytesBE_length (k n : Nat) : (toBytesBE k n).length = k := by
  induction k generalizing n with
  | zero => rfl
  | succ k ih => simp [toBytesBE, ih]

theorem sha256_length (msg : Bytes) : (sha256 msg).length = 32 := by
  simp [sha256, Hash8.toDigest, toBytesBE_length]

end Sha256

/-- FIPS 198-1 HMAC instantiated with SHA-256. -/
def hmacSha256 (key msg : Bytes) : Bytes :=
  let k0 :=
    if 64 < key.length then sha256 key ++ List.replicate 32 0
    else key ++ List.replicate (64 - key.length) 0
  let ipad := k0.map (fun b => b ^^^ 54)
  let opad := k0.map (fun b => b ^^^ 92)
  sha256 (opad ++ sha256 (ipad ++ msg))

namespace hkdf

/-- Modelled from the spec: the repository module `fernet_fields/hkdf.py`
(only imported by `fields.py`, not present here) holds the fixed
informational context string used for domain separation.  The spec calls
for "a fixed informational context string identifying this system
purpose"; the byte string below spells `django-fernet-fields`. -/
def hkdfInfo : Bytes :=
  [100, 106, 97, 110, 103, 111, 45, 102, 101, 114, 110, 101, 116,
   45, 102, 105, 101, 108, 100, 115]

/-- Modelled from the spec: the function `derive_fernet_key` of the
repository module `fernet_fields/hkdf.py`, absent from the sources
here.  Per the spec it applies
"a standard extract-and-expand key derivation function" (RFC 5869 HKDF)
with an HMAC-SHA-256 construction, no salt (RFC 5869 then uses a string
of hash-length zero bytes), the fixed info string above, and a 32-byte
output (a single expansion block `T(1) = HMAC(PRK, info || 1)`). -/
def derive_fernet_key (secret : Bytes) : Bytes :=
  let prk := hmacSha256 (List.replicate 32 0) secret
  hmacSha256 prk (hkdfInfo ++ [1])

end hkdf

/-- The process-wide Django settings consulted by `EncryptedField`:
`FERNET_KEYS` and `FERNET_USE_HKDF` may be absent (`none`), and
`SECRET_KEY` is always present.  Secrets are byte strings. -/
structure Settings where
  FERNET_KEYS : Option (List Bytes)
  FERNET_USE_HKDF : Option Bool
  SECRET_KEY : Bytes
  deriving Repr, DecidableEq

/-- An ideal model of a `cryptography.fernet.Fernet` token: it records
the key it was encrypted under, the random nonce of that encryption,
and the plaintext; only the matching key authenticates it. -/
structure FernetToken where
  key : Bytes
  nonce : Nat
  plaintext : Bytes
  deriving Repr, DecidableEq

/-- Embeds `Fernet(key).decrypt(token)`: succeeds with the plaintext exactly
when the token was produced under this key; `none` models the
`InvalidToken` exception. -/
def fernetDecrypt (key : Bytes) (t : FernetToken) : Option Bytes :=
  if t.key = key then some t.plaintext else none

/-- Embeds `MultiFernet.decrypt`: try each key in list order, returning the
first success; `none` (`InvalidToken`) only if every key fails. -/
def multiDecrypt : List Bytes → FernetToken → Option Bytes
  | [], _ => none
  | k :: rest, t =>
      match fernetDecrypt k t with
      | some pt => some pt
      | none => multiDecrypt rest t

/-- The cipher object cached by `EncryptedField.fernet`: either a plain
`Fernet` over one key or a `MultiFernet` over a non-empty key list
(the `cryptography` library rejects an empty `MultiFernet`). -/
inductive FernetCipher where
  | fernet (k : Bytes)
  | multiFernet (k : Bytes) (rest : List Bytes)
  deriving Repr, DecidableEq

/-- The ordered key list a cipher decrypts against. -/
def FernetCipher.keyList : FernetCipher → List Bytes
  | .fernet k => [k]
  | .multiFernet k rest => k :: rest

/-- Encryption with a fresh `nonce`: both `Fernet` and `MultiFernet`
encrypt under the first (primary) key. -/
def FernetCipher.encrypt : FernetCipher → Nat → Bytes → FernetToken
  | .fernet k, nonce, pt => ⟨k, nonce, pt⟩
  | .multiFernet k _, nonce, pt => ⟨k, nonce, pt⟩

/-- Decryption: a plain `Fernet` checks its one key, a `MultiFernet`
tries each key in order. -/
def FernetCipher.decrypt : FernetCipher → FernetToken → Option Bytes
  | .fernet k, t => fernetDecrypt k t
  | .multiFernet k rest, t => multiDecrypt (k :: rest) t

namespace EncryptedField

/-- Embeds `EncryptedField.keys`: `settings.FERNET_KEYS`, defaulting to
`[settings.SECRET_KEY]` when the setting is absent. -/
def keys (s : Settings) : List Bytes :=
  match s.FERNET_KEYS with
  | none => [s.SECRET_KEY]
  | some ks => ks

/-- Embeds `EncryptedField.fernet_keys`: when `FERNET_USE_HKDF` is true
(the default when the setting is absent), pass every configured key
through `hkdf.derive_fernet_key`, in order; otherwise use the keys
unchanged. -/
def fernet_keys (s : Settings) : List Bytes :=
  if (s.FERNET_USE_HKDF.getD true) = true then
    (keys s).map hkdf.derive_fernet_key
  else
    keys s

/-- Construct the cipher from a key list: one key gives a plain
`Fernet` over `keys[0]`, several give a `MultiFernet`; an empty list
gives `none` (the `MultiFernet` constructor raises on an empty list). -/
def buildFernet : List Bytes → Option FernetCipher
  | [] => none
  | [k] => some (.fernet k)
  | k :: k2 :: rest => some (.multiFernet k (k2 :: rest))

/-- Embeds `EncryptedField.fernet`: the cached cipher over the derived keys. -/
def fernet (s : Settings) : Option FernetCipher :=
  buildFernet (fernet_keys s)

end EncryptedField

/-- Exceptions raised by the embedded Django code. -/
inductive DjangoError where
  | improperlyConfigured (msg : String)
  | fieldError (msg : String)
  deriving Repr, DecidableEq

/-- Errors surfaced while loading a stored cell. -/
inductive LoadError where
  | invalidToken
  | deserializationError
  deriving Repr, DecidableEq

/-- The keyword arguments checked by the field constructors (Python
`kwargs.get(...)` truthiness on absent keys yields `False`). -/
structure FieldKwargs where
  primary_key : Bool
  unique : Bool
  db_index : Bool
  null : Bool
  deriving Repr, DecidableEq

/-- The state of a constructed `EncryptedField` relevant here. -/
structure EncryptedFieldObj where
  editable : Bool
  null : Bool
  creation_counter : Int
  deriving Repr, DecidableEq

namespace EncryptedField

/-- Embeds `EncryptedField.__init__`: reject `primary_key`, `unique` and
`db_index` (in that order) with `ImproperlyConfigured`, then defer to
`models.Field.__init__`, which records the declaration-order creation
counter. -/
def init (kw : FieldKwargs) (counter : Nat) :
    Except DjangoError EncryptedFieldObj :=
  if kw.primary_key then
    .error (.improperlyConfigured
      "EncryptedField does not support primary_key=True.")
  else if kw.unique then
    .error (.improperlyConfigured
      "EncryptedField does not support unique=True.")
  else if kw.db_index then
    .error (.improperlyConfigured
      "EncryptedField does not support db_index=True.")
  else
    .ok { editable := true, null := kw.null,
          creation_counter := (counter : Int) }

/-- Embeds `EncryptedField.get_db_prep_save`: `None` propagates as `None`;
otherwise serialize (the inherited `get_db_prep_save` composed with
`force_bytes`, supplied by the host framework as `ser`) and encrypt
with this field cipher under a fresh nonce. -/
def get_db_prep_save {α : Type} (c : FernetCipher) (ser : α → Bytes)
    (nonce : Nat) : Option α → Option FernetToken
  | none => none
  | some v => some (c.encrypt nonce (ser v))

/-- Embeds `EncryptedField.from_db_value`: a NULL cell loads as `None`;
otherwise decrypt (raising `InvalidToken` when no key authenticates)
and deserialize back to the logical type (`force_text` composed with
`to_python`, supplied by the host framework as `deser`). -/
def from_db_value {α : Type} (c : FernetCipher) (deser : Bytes → Option α) :
    Option FernetToken → Except LoadError (Option α)
  | none => .ok none
  | some t =>
      match c.decrypt t with
      | none => .error .invalidToken
      | some b =>
          match deser b with
          | none => .error .deserializationError
          | some v => .ok (some v)

/-- Embeds `EncryptedField.get_prep_lookup`: unconditionally raises
`FieldError` — an encrypted column supports no lookups. -/
def get_prep_lookup {α : Type} (name lookup_type : String) (value : α) :
    Except DjangoError α :=
  .error (.fieldError
    ("Encrypted field " ++ name ++ " does not support lookups."))

end EncryptedField

/-- The in-memory state of a model instance, restricted to the one
attribute the dual machinery touches: the hidden encrypted field
attribute (`<name>_encrypted`). -/
structure ModelInstance (α : Type) where
  encrypted_attr : Option α
  deriving Repr, DecidableEq

/-- A value arriving at the dual attribute: either the module-level
`NO_VALUE` sentinel or an ordinary (possibly `None`) value. -/
inductive AttrValue (α : Type) where
  | NO_VALUE
  | value (v : Option α)
  deriving Repr, DecidableEq

namespace DualFieldDescriptor

/-- Embeds `DualFieldDescriptor.__get__`: read through to the hidden
encrypted field attribute. -/
def get {α : Type} (inst : ModelInstance α) : Option α :=
  inst.encrypted_attr

/-- Embeds `DualFieldDescriptor.__set__`: writes of `NO_VALUE` are ignored,
any other value is written through to the hidden encrypted field
attribute. -/
def set {α : Type} (inst : ModelInstance α) : AttrValue α → ModelInstance α
  | .NO_VALUE => inst
  | .value v => { inst with encrypted_attr := v }

end DualFieldDescriptor

/-- The state of a constructed `DualField` relevant here. -/
structure DualFieldObj where
  creation_counter : Int
  encrypted_field : EncryptedFieldObj
  deriving Repr, DecidableEq

namespace DualField

/-- Embeds `DualField.__init__`: reject `primary_key` with
`ImproperlyConfigured` (`unique` and `db_index` are passed through to
`models.Field.__init__` unchecked), then create the associated
encrypted field with `editable=False, null=self.null` and force its
creation counter to `-1` so the model populates it first. -/
def init (kw : FieldKwargs) (counter : Nat) :
    Except DjangoError DualFieldObj :=
  if kw.primary_key then
    .error (.improperlyConfigured
      "DualField does not support primary_key=True.")
  else
    match EncryptedField.init
        { primary_key := false, unique := false, db_index := false,
          null := kw.null } (counter + 1) with
    | .error e => .error e
    | .ok ef =>
        .ok { creation_counter := (counter : Int),
              encrypted_field :=
                { ef with editable := false, creation_counter := -1 } }

/-- Embeds `DualField._hash_value`: the SHA-256 digest of `force_bytes(val)`
(`ser` is the host framework `force_bytes`). -/
def hash_value {α : Type} (ser : α → Bytes) (val : α) : Bytes :=
  sha256 (ser val)

/-- Embeds `DualField.get_db_prep_value`: `None` stays `None`, anything else
becomes its hash digest (wrapped as a database binary). -/
def get_db_prep_value {α : Type} (ser : α → Bytes) :
    Option α → Option Bytes
  | none => none
  | some v => some (hash_value ser v)

/-- Embeds `DualField.pre_save`: the value to save is read from the hidden
encrypted field current value on the instance
(`value_from_object`). -/
def pre_save {α : Type} (inst : ModelInstance α) : Option α :=
  inst.encrypted_attr

/-- The hash cell written on save: `get_db_prep_value` applied to the
`pre_save` value. -/
def stored_hash {α : Type} (ser : α → Bytes) (inst : ModelInstance α) :
    Option Bytes :=
  get_db_prep_value ser (pre_save inst)

/-- Embeds `DualField.get_prep_lookup`: only `exact`, `in` and `isnull` are
permitted; everything else raises `FieldError`.  The permitted lookups
defer to `models.Field.get_prep_lookup`, modelled as returning the
value. -/
def get_prep_lookup {α : Type} (name lookup_type : String) (value : α) :
    Except DjangoError α :=
  if lookup_type = "exact" ∨ lookup_type = "in" ∨ lookup_type = "isnull" then
    .ok value
  else
    .error (.fieldError
      ("DualField " ++ name ++ " supports only exact, in, and isnull lookups."))

/-- Embeds `DualField.from_db_value`: no useful value is recoverable from the
stored hash — always the `NO_VALUE` sentinel. -/
def from_db_value {α : Type} (cell : Option Bytes) : AttrValue α :=
  .NO_VALUE

end DualField

/-- Sequential attribute writes through the descriptor. -/
def applyWrites {α : Type} (inst : ModelInstance α)
    (ws : List (AttrValue α)) : ModelInstance α :=
  ws.foldl DualFieldDescriptor.set inst

/-- Loading one stored row `(encrypted cell, hash cell)` into an
instance: the hidden encrypted field `from_db_value` result is
assigned to its plain attribute, then the dual field `from_db_value`
result is assigned to the logical attribute, which is intercepted by
the `DualFieldDescriptor` (the encrypted field creation counter of
`-1` orders it first). -/
def loadInstance {α : Type} (c : FernetCipher) (deser : Bytes → Option α)
    (enc_cell : Option FernetToken) (hash_cell : Option Bytes)
    (inst : ModelInstance α) : Except LoadError (ModelInstance α) :=
  match EncryptedField.from_db_value c deser enc_cell with
  | .error e => .error e
  | .ok v =>
      .ok (DualFieldDescriptor.set { inst with encrypted_attr := v }
        (DualField.from_db_value hash_cell))

/-! ## Validation of the SHA-256 model against FIPS 180-4 test vectors -/

example : sha256 [] =
    [227, 176, 196, 66, 152, 252, 28, 20,
     154, 251, 244, 200, 153, 111, 185, 36,
     39, 174, 65, 228, 100, 155, 147, 76,
     164, 149, 153, 27, 120, 82, 184, 85] := by decide

example : sha256 [97, 98, 99] =
    [186, 120, 22, 191, 143, 1, 207, 234,
     65, 65, 64, 222, 93, 174, 34, 35,
     176, 3, 97, 163, 150, 23, 122, 156,
     180, 16, 255, 97, 242, 0, 21, 173] := by decide

/-! ## Helper lemmas -/

theorem multiDecrypt_some_iff (ks : List Bytes) (t : FernetToken) :
    multiDecrypt ks t = some t.plaintext ↔ t.key ∈ ks := by
  induction ks with
  | nil => simp [multiDecrypt]
  | cons k rest ih =>
      simp only [multiDecrypt, fernetDecrypt]
      by_cases hk : t.key = k
      · simp [hk]
      · simp [hk, ih]

theorem multiDecrypt_none_iff (ks : List Bytes) (t : FernetToken) :
    multiDecrypt ks t = none ↔ t.key ∉ ks := by
  induction ks with
  | nil => simp [multiDecrypt]
  | cons k rest ih =>
      simp only [multiDecrypt, fernetDecrypt]
      by_cases hk : t.key = k
      · simp [hk]
      · simp [hk, ih]

theorem FernetCipher.decrypt_encrypt (c : FernetCipher) (nonce : Nat)
    (pt : Bytes) : c.decrypt (c.encrypt nonce pt) = some pt := by
  cases c with
  | fernet k => simp [FernetCipher.decrypt, FernetCipher.encrypt, fernetDecrypt]
  | multiFernet k rest =>
      simp [FernetCipher.decrypt, FernetCipher.encrypt, multiDecrypt,
        fernetDecrypt]

theorem buildFernet_isSome (ks : List Bytes) (h : ks ≠ []) :
    (EncryptedField.buildFernet ks).isSome = true := by
  match ks with
  | [] => exact absurd rfl h
  | [k] => rfl
  | k :: k2 :: rest => rfl

theorem buildFernet_keyList (ks : List Bytes) (c : FernetCipher)
    (h : EncryptedField.buildFernet ks = some c) : c.keyList = ks := by
  match ks with
  | [] => exact absurd h (by simp [EncryptedField.buildFernet])
  | [k] =>
      simp only [EncryptedField.buildFernet, Option.some_inj] at h
      subst h; rfl
  | k :: k2 :: rest =>
      simp only [EncryptedField.buildFernet, Option.some_inj] at h
      subst h; rfl

/-! ## Claims -/

/-- C1: for every save of a dual field, the value hashed into the hash
cell is read from the hidden encrypted field via `pre_save`, the stored
hash cell is the 32-byte SHA-256 digest of the byte encoding of that
value when it is non-null and NULL when it is null, and intermediate
reassignments through the descriptor before the save do not affect the
stored digest — only the final value matters. -/
theorem C1_dual_hash_from_final_value {α : Type} (ser : α → Bytes)
    (inst : ModelInstance α) (ws : List (AttrValue α)) (v : Option α) :
    DualField.stored_hash ser (applyWrites inst (ws ++ [AttrValue.value v]))
      = v.map (fun x => sha256 (ser x))
    ∧ (∀ inst2 : ModelInstance α,
        DualField.stored_hash ser inst2
          = (DualField.pre_save inst2).map (fun x => sha256 (ser x)))
    ∧ (∀ x : α, (sha256 (ser x)).length = 32) := by
  refine ⟨?_, ?_, fun x => Sha256.sha256_length (ser x)⟩
  · simp only [applyWrites, List.foldl_append, List.foldl_cons,
      List.foldl_nil, DualFieldDescriptor.set]
    cases v <;>
      simp [DualField.stored_hash, DualField.pre_save,
        DualField.get_db_prep_value, DualField.hash_value]
  · intro inst2
    cases h : DualField.pre_save inst2 <;>
      simp [DualField.stored_hash, h, DualField.get_db_prep_value,
        DualField.hash_value]

/-- C2: encryption always uses the first (primary) configured key, and
decryption tries each configured key in order, succeeding exactly when
some configured key authenticates the token and failing with
`InvalidToken` exactly when none does. -/
theorem C2_encrypt_primary_decrypt_any (k : Bytes) (rest : List Bytes)
    (c : FernetCipher) (h : EncryptedField.buildFernet (k :: rest) = some c) :
    (∀ (nonce : Nat) (pt : Bytes),
      c.encrypt nonce pt = { key := k, nonce := nonce, plaintext := pt })
    ∧ (∀ t : FernetToken,
        (c.decrypt t = some t.plaintext ↔ t.key ∈ k :: rest)
        ∧ (c.decrypt t = none ↔ t.key ∉ k :: rest)) := by
  cases rest with
  | nil =>
      simp only [EncryptedField.buildFernet, Option.some_inj] at h
      subst h
      refine ⟨fun nonce pt => rfl, fun t => ⟨?_, ?_⟩⟩
      · simp only [FernetCipher.decrypt, fernetDecrypt, List.mem_singleton]
        by_cases hk : t.key = k <;> simp [hk]
      · simp only [FernetCipher.decrypt, fernetDecrypt, List.mem_singleton]
        by_cases hk : t.key = k <;> simp [hk]
  | cons k2 rest2 =>
      simp only [EncryptedField.buildFernet, Option.some_inj] at h
      subst h
      exact ⟨fun nonce pt => rfl, fun t =>
        ⟨multiDecrypt_some_iff (k :: k2 :: rest2) t,
         multiDecrypt_none_iff (k :: k2 :: rest2) t⟩⟩

/-- Witness for C2 at the concrete key list `[[1], [2]]`: the cipher is
a `MultiFernet`, a token encrypted under either key decrypts, and a
token under the absent key `[3]` fails. -/
theorem C2_encrypt_primary_decrypt_any_witness :
    (FernetCipher.multiFernet [1] [[2]]).encrypt 7 [9, 9]
      = { key := [1], nonce := 7, plaintext := [9, 9] }
    ∧ ((FernetCipher.multiFernet [1] [[2]]).decrypt ⟨[2], 5, [4]⟩
        = some ([4] : Bytes) ↔ ([2] : Bytes) ∈ [([1] : Bytes), [2]])
    ∧ ((FernetCipher.multiFernet [1] [[2]]).decrypt ⟨[3], 5, [4]⟩
        = none ↔ ([3] : Bytes) ∉ [([1] : Bytes), [2]]) :=
  have h := C2_encrypt_primary_decrypt_any [1] [[2]]
    (FernetCipher.multiFernet [1] [[2]]) rfl
  ⟨h.1 7 [9, 9], (h.2 ⟨[2], 5, [4]⟩).1, (h.2 ⟨[3], 5, [4]⟩).2⟩

/-- C3: for every supported logical value, loading back what was
prepared for storage returns it unchanged (given the host serializer
contract `deser (ser x) = some x`); in particular `get_db_prep_save`
propagates NULL and `from_db_value` returns NULL for a NULL cell. -/
theorem C3_round_trip {α : Type} (c : FernetCipher) (ser : α → Bytes)
    (deser : Bytes → Option α) (hinv : ∀ x, deser (ser x) = some x)
    (nonce : Nat) (v : Option α) :
    EncryptedField.from_db_value c deser
        (EncryptedField.get_db_prep_save c ser nonce v) = .ok v
    ∧ EncryptedField.get_db_prep_save c ser nonce (none : Option α) = none
    ∧ EncryptedField.from_db_value c deser none
        = .ok (none : Option α) := by
  refine ⟨?_, rfl, rfl⟩
  cases v with
  | none => rfl
  | some x =>
      simp [EncryptedField.get_db_prep_save, EncryptedField.from_db_value,
        FernetCipher.decrypt_encrypt, hinv x]

/-- Witness for C3 with bytes as the logical type, the identity
serializer, a single-key cipher and the value `[5, 6]`. -/
theorem C3_round_trip_witness :
    EncryptedField.from_db_value (FernetCipher.fernet [1]) some
        (EncryptedField.get_db_prep_save (FernetCipher.fernet [1])
          (fun b => b) 3 (some ([5, 6] : Bytes))) = .ok (some [5, 6])
    ∧ EncryptedField.get_db_prep_save (FernetCipher.fernet [1])
        (fun b => b) 3 (none : Option Bytes) = none
    ∧ EncryptedField.from_db_value (FernetCipher.fernet [1]) some none
        = .ok (none : Option Bytes) :=
  C3_round_trip (FernetCipher.fernet [1]) (fun b => b) some
    (fun x => rfl) 3 (some [5, 6])

/-- C4: loading the dual field hash cell always yields the `NO_VALUE`
sentinel, writing `NO_VALUE` through the descriptor leaves the hidden
encrypted attribute unchanged while any other write goes through to it,
reading the logical attribute returns the encrypted attribute value,
and hence after a load the logical attribute equals the value decrypted
from the encrypted cell only — whatever the hash cell holds. -/
theorem C4_load_yields_sentinel {α : Type} (c : FernetCipher)
    (deser : Bytes → Option α) (enc_cell : Option FernetToken)
    (hash_cell : Option Bytes) (inst : ModelInstance α) (v : Option α)
    (h : EncryptedField.from_db_value c deser enc_cell = .ok v) :
    loadInstance c deser enc_cell hash_cell inst
      = .ok { encrypted_attr := v }
    ∧ DualFieldDescriptor.get ({ encrypted_attr := v } : ModelInstance α) = v
    ∧ (∀ cell2 : Option Bytes,
        DualField.from_db_value (α := α) cell2 = AttrValue.NO_VALUE)
    ∧ (∀ (i : ModelInstance α) (cell2 : Option Bytes),
        DualFieldDescriptor.set i (DualField.from_db_value cell2) = i)
    ∧ (∀ (i : ModelInstance α) (w : Option α),
        DualFieldDescriptor.set i (AttrValue.value w)
          = { i with encrypted_attr := w }
        ∧ DualFieldDescriptor.get (DualFieldDescriptor.set i (AttrValue.value w))
            = w) := by
  refine ⟨?_, rfl, fun cell2 => rfl, fun i cell2 => rfl,
    fun i w => ⟨rfl, rfl⟩⟩
  simp [loadInstance, h, DualField.from_db_value, DualFieldDescriptor.set]

/-- Witness for C4: a NULL encrypted cell and a non-NULL stored hash
cell load into an instance whose logical attribute is NULL — the digest
never becomes the attribute value. -/
theorem C4_load_yields_sentinel_witness :
    loadInstance (FernetCipher.fernet [1]) some none (some [9, 9])
        ({ encrypted_attr := some [7] } : ModelInstance Bytes)
      = .ok { encrypted_attr := none }
    ∧ DualFieldDescriptor.get
        ({ encrypted_attr := none } : ModelInstance Bytes) = none :=
  have h := C4_load_yields_sentinel (FernetCipher.fernet [1]) some none
    (some [9, 9]) ({ encrypted_attr := some [7] } : ModelInstance Bytes)
    none rfl
  ⟨h.1, h.2.1⟩

/-- C5: lookup preparation on a pure encrypted field raises `FieldError`
for every lookup type, whereas on a dual field exactly `exact`, `in` and
`isnull` are permitted (returning the value unchanged) and every other
lookup type raises `FieldError`. -/
theorem C5_lookup_restriction {α : Type} (name lt : String) (v : α) :
    (EncryptedField.get_prep_lookup name lt v).isOk = false
    ∧ ((DualField.get_prep_lookup name lt v).isOk = true ↔
        lt = "exact" ∨ lt = "in" ∨ lt = "isnull")
    ∧ ((lt = "exact" ∨ lt = "in" ∨ lt = "isnull") →
        DualField.get_prep_lookup name lt v = .ok v)
    ∧ (¬(lt = "exact" ∨ lt = "in" ∨ lt = "isnull") →
        DualField.get_prep_lookup name lt v
          = .error (.fieldError ("DualField " ++ name ++
              " supports only exact, in, and isnull lookups."))) := by
  refine ⟨rfl, ?_, ?_, ?_⟩ <;>
    by_cases hlt : lt = "exact" ∨ lt = "in" ∨ lt = "isnull" <;>
      simp [DualField.get_prep_lookup, hlt, Except.isOk, Except.toBool]

/-- Witness for C5: on a dual field an `exact` lookup passes the value
through, a `gt` lookup raises `FieldError`, and on an encrypted field
even `exact` raises. -/
theorem C5_lookup_restriction_witness :
    (EncryptedField.get_prep_lookup "mail" "exact" (5 : Nat)).isOk = false
    ∧ DualField.get_prep_lookup "mail" "exact" (5 : Nat) = .ok 5
    ∧ DualField.get_prep_lookup "mail" "gt" (5 : Nat)
        = .error (.fieldError
            "DualField mail supports only exact, in, and isnull lookups.") :=
  have he := C5_lookup_restriction "mail" "exact" (5 : Nat)
  have hg := C5_lookup_restriction "mail" "gt" (5 : Nat)
  ⟨he.1, he.2.2.1 (Or.inl rfl), hg.2.2.2 (by simp)⟩

/-- C6 counterexample: declaring a `DualField` with `unique=True` and
`db_index=True` succeeds — `DualField.__init__` checks only
`primary_key`, so the claimed configuration error is not raised. -/
theorem C6_counterexample :
    (DualField.init
      { primary_key := false, unique := true, db_index := true,
        null := false } 0).isOk = true := by decide

/-- C6 (amended): declaring a dual attribute with `primary_key=True`
fails at declaration time with `ImproperlyConfigured`, before any value
is processed; `unique=True` and `db_index=True` are accepted on the
dual field (its deterministic hash column supports indexes). -/
theorem C6_dual_declaration_checks (kw : FieldKwargs) (counter : Nat) :
    (kw.primary_key = true →
      DualField.init kw counter
        = .error (.improperlyConfigured
            "DualField does not support primary_key=True."))
    ∧ (kw.primary_key = false → (DualField.init kw counter).isOk = true) := by
  constructor
  · intro h
    simp [DualField.init, h]
  · intro h
    simp [DualField.init, h, EncryptedField.init, Except.isOk, Except.toBool]

/-- Witness for C6 (amended): `primary_key=True` is rejected at
declaration time, and the all-false configuration is accepted. -/
theorem C6_dual_declaration_checks_witness :
    DualField.init
        { primary_key := true, unique := false, db_index := false,
          null := false } 0
      = .error (.improperlyConfigured
          "DualField does not support primary_key=True.")
    ∧ (DualField.init
        { primary_key := false, unique := false, db_index := false,
          null := false } 0).isOk = true :=
  ⟨(C6_dual_declaration_checks
      { primary_key := true, unique := false, db_index := false,
        null := false } 0).1 rfl,
   (C6_dual_declaration_checks
      { primary_key := false, unique := false, db_index := false,
        null := false } 0).2 rfl⟩

/-- C7: constructing an `EncryptedField` with any of `primary_key=True`,
`unique=True` or `db_index=True` raises `ImproperlyConfigured` at
construction time; with none of them set, construction succeeds. -/
theorem C7_encrypted_declaration_checks (kw : FieldKwargs) (counter : Nat) :
    ((kw.primary_key || kw.unique || kw.db_index) = true →
      ∃ msg, EncryptedField.init kw counter
        = .error (.improperlyConfigured msg))
    ∧ ((kw.primary_key || kw.unique || kw.db_index) = false →
      EncryptedField.init kw counter
        = .ok { editable := true, null := kw.null,
                creation_counter := (counter : Int) }) := by
  constructor
  · intro h
    cases hp : kw.primary_key with
    | true =>
        exact ⟨"EncryptedField does not support primary_key=True.",
          by simp [EncryptedField.init, hp]⟩
    | false =>
        cases hu : kw.unique with
        | true =>
            exact ⟨"EncryptedField does not support unique=True.",
              by simp [EncryptedField.init, hp, hu]⟩
        | false =>
            cases hd : kw.db_index with
            | true =>
                exact ⟨"EncryptedField does not support db_index=True.",
                  by simp [EncryptedField.init, hp, hu, hd]⟩
            | false => simp [hp, hu, hd] at h
  · intro h
    simp only [Bool.or_eq_false_iff] at h
    simp [EncryptedField.init, h.1.1, h.1.2, h.2]

/-- Witness for C7: each of the three flags is rejected on its own, and
the flag-free construction succeeds. -/
theorem C7_encrypted_declaration_checks_witness :
    (∃ msg, EncryptedField.init
        { primary_key := true, unique := false, db_index := false,
          null := false } 0
      = .error (.improperlyConfigured msg))
    ∧ (∃ msg, EncryptedField.init
        { primary_key := false, unique := true, db_index := false,
          null := false } 0
      = .error (.improperlyConfigured msg))
    ∧ (∃ msg, EncryptedField.init
        { primary_key := false, unique := false, db_index := true,
          null := false } 0
      = .error (.improperlyConfigured msg))
    ∧ EncryptedField.init
        { primary_key := false, unique := false, db_index := false,
          null := true } 4
      = .ok { editable := true, null := true, creation_counter := 4 } :=
  ⟨(C7_encrypted_declaration_checks
      { primary_key := true, unique := false, db_index := false,
        null := false } 0).1 rfl,
   (C7_encrypted_declaration_checks
      { primary_key := false, unique := true, db_index := false,
        null := false } 0).1 rfl,
   (C7_encrypted_declaration_checks
      { primary_key := false, unique := false, db_index := true,
        null := false } 0).1 rfl,
   (C7_encrypted_declaration_checks
      { primary_key := false, unique := false, db_index := false,
        null := true } 4).2 rfl⟩

/-- C8: when `FERNET_USE_HKDF` is true — the default when the setting
is absent — every configured secret is passed through the HKDF
derivation in configuration order; when it is false, the configured
secrets are used unchanged as the keys. -/
theorem C8_key_derivation_flag (s : Settings) :
    ((s.FERNET_USE_HKDF = none ∨ s.FERNET_USE_HKDF = some true) →
      EncryptedField.fernet_keys s
        = (EncryptedField.keys s).map hkdf.derive_fernet_key)
    ∧ (s.FERNET_USE_HKDF = some false →
      EncryptedField.fernet_keys s = EncryptedField.keys s) := by
  constructor
  · rintro (h | h) <;> simp [EncryptedField.fernet_keys, h]
  · intro h
    simp [EncryptedField.fernet_keys, h]

/-- Witness for C8: with the setting absent the keys are derived, and
with the setting false the two configured secrets pass through
unchanged. -/
theorem C8_key_derivation_flag_witness :
    EncryptedField.fernet_keys ⟨some [[1], [2]], none, [0]⟩
      = (EncryptedField.keys ⟨some [[1], [2]], none, [0]⟩).map
          hkdf.derive_fernet_key
    ∧ EncryptedField.fernet_keys ⟨some [[1], [2]], some false, [0]⟩
      = EncryptedField.keys ⟨some [[1], [2]], some false, [0]⟩ :=
  ⟨(C8_key_derivation_flag ⟨some [[1], [2]], none, [0]⟩).1 (Or.inl rfl),
   (C8_key_derivation_flag ⟨some [[1], [2]], some false, [0]⟩).2 rfl⟩

/-- C9: every successfully constructed `DualField` gives its hidden
encrypted field the creation counter `-1`, strictly lower than the
counter of any normally allocated field (Django allocates those from a
global counter starting at `0`) and in particular lower than the dual
field itself, so the encrypted member is populated first during model
initialization. -/
theorem C9_encrypted_counter_first (kw : FieldKwargs) (counter : Nat)
    (dual : DualFieldObj) (h : DualField.init kw counter = .ok dual) :
    dual.encrypted_field.creation_counter = -1
    ∧ (∀ other : Nat,
        dual.encrypted_field.creation_counter < (other : Int))
    ∧ dual.encrypted_field.creation_counter < dual.creation_counter := by
  cases hp : kw.primary_key with
  | true => simp [DualField.init, hp] at h
  | false =>
      simp only [DualField.init, hp, Bool.false_eq_true, if_false,
        EncryptedField.init, Except.ok.injEq] at h
      subst h
      refine ⟨rfl, fun other => ?_, ?_⟩
      · show (-1 : Int) < (other : Int)
        omega
      · show (-1 : Int) < (counter : Int)
        omega

/-- Witness for C9 at the all-false keyword set and counter `3`. -/
theorem C9_encrypted_counter_first_witness :
    ({ creation_counter := 3,
       encrypted_field :=
         { editable := false, null := false, creation_counter := -1 } }
        : DualFieldObj).encrypted_field.creation_counter = -1
    ∧ (∀ other : Nat,
        ({ creation_counter := 3,
           encrypted_field :=
             { editable := false, null := false, creation_counter := -1 } }
            : DualFieldObj).encrypted_field.creation_counter < (other : Int)) :=
  have h := C9_encrypted_counter_first
    { primary_key := false, unique := false, db_index := false,
      null := false } 3
    { creation_counter := 3,
      encrypted_field :=
        { editable := false, null := false, creation_counter := -1 } }
    rfl
  ⟨h.1, h.2.1⟩

/-- C10: when `FERNET_KEYS` is absent the key list defaults to the
single-element list holding `SECRET_KEY`; under the precondition that
`FERNET_KEYS`, when present, is non-empty, the key list is non-empty,
the derived key list is non-empty, and building the cipher (which
accesses the first element) succeeds. -/
theorem C10_keys_default_nonempty (s : Settings)
    (h : ∀ ks, s.FERNET_KEYS = some ks → ks ≠ []) :
    (s.FERNET_KEYS = none → EncryptedField.keys s = [s.SECRET_KEY])
    ∧ EncryptedField.keys s ≠ []
    ∧ EncryptedField.fernet_keys s ≠ []
    ∧ (EncryptedField.fernet s).isSome = true := by
  have hkeys : EncryptedField.keys s ≠ [] := by
    cases hk : s.FERNET_KEYS with
    | none => simp [EncryptedField.keys, hk]
    | some ks => simpa [EncryptedField.keys, hk] using h ks hk
  have hfk : EncryptedField.fernet_keys s ≠ [] := by
    unfold EncryptedField.fernet_keys
    by_cases hb : (s.FERNET_USE_HKDF.getD true) = true <;>
      simp [hb, hkeys]
  refine ⟨fun hk => by simp [EncryptedField.keys, hk], hkeys, hfk, ?_⟩
  exact buildFernet_isSome _ hfk

/-- Witness for C10 with `FERNET_KEYS` absent: the key list is exactly
`[SECRET_KEY]` and cipher construction succeeds. -/
theorem C10_keys_default_nonempty_witness :
    EncryptedField.keys ⟨none, none, [7]⟩ = [[7]]
    ∧ (EncryptedField.fernet ⟨none, none, [7]⟩).isSome = true :=
  have h := C10_keys_default_nonempty ⟨none, none, [7]⟩
    (fun ks hk => by cases hk)
  ⟨h.1 rfl, h.2.2.2⟩
